import Mathlib

/-!
Verification of the sg-cafe-reviews collection and cleaning pipeline.

Shallow embedding of:
  src/src/data/query.py      (CafeQuery: collect_cafes, collect_all, collect_reviews)
  src/src/data/process.py    (CafeProcessor: clean_cafe_df, clean_review_df,
                              clean_review_text, cafe_reviews_df)
  src/scripts/collect_data.py (collect_all_data's cross-area dedup)

Python strings are embedded as lists of Unicode code points (`PyStr`), fallible
Python code as `Except PyErr`, pandas frames as lists of typed rows, and
nullable cells as `Option`.
-/

/-- Exceptions that the embedded code can raise, mirroring the Python
exception classes and payloads seen in the source. -/
inductive PyErr : Type where
  | keyError (key : String)
  | valueError (msg : String)
  | attributeError (attr : String)
  | nameError (nm : String)
  | apiError (msg : String)
deriving DecidableEq, Repr

/-- A Python `str` as its list of Unicode code points. -/
abbrev PyStr := List Nat

/-- Code points of a Lean string literal, for writing concrete `PyStr` inputs. -/
def codes (s : String) : PyStr := s.data.map Char.toNat

/-- Python `str.isspace` on the characters relevant to `str.split()` /
`str.lower()` over the ASCII range: space, tab, newline, vertical tab,
form feed, carriage return. -/
def pyIsSpace (c : Nat) : Bool :=
  c == 32 || c == 9 || c == 10 || c == 11 || c == 12 || c == 13

/-- Python `str.lower` on one ASCII code point: `A`-`Z` map down by 32,
everything else (punctuation, digits, already-lowercase) is unchanged. -/
def pyLowerChar (c : Nat) : Nat :=
  if 65 ≤ c ∧ c ≤ 90 then c + 32 else c

/-- Python `str.lower` over a whole string. -/
def pyLower (s : PyStr) : PyStr := s.map pyLowerChar

/-- Accumulator worker for `pyWords`: `cur` is the (reversed) word currently
being scanned. Whitespace closes the current word, anything else extends it. -/
def pyWordsAux : PyStr → PyStr → List PyStr
  | [], cur => if cur = [] then [] else [cur.reverse]
  | c :: s, cur =>
    if pyIsSpace c then
      if cur = [] then pyWordsAux s [] else cur.reverse :: pyWordsAux s []
    else pyWordsAux s (c :: cur)

/-- Python `str.split()` with no separator argument: split on runs of
whitespace, discarding leading/trailing whitespace and empty tokens. -/
def pyWords (s : PyStr) : List PyStr := pyWordsAux s []

/-- Python `' '.join(ws)`: concatenate the tokens with a single ASCII
space (code point 32) between consecutive tokens. -/
def pyJoin : List PyStr → PyStr
  | [] => []
  | [w] => w
  | w :: x :: xs => w ++ 32 :: pyJoin (x :: xs)

/-- `CafeProcessor.clean_review_text` (process.py lines 72-82):
`None`/NaN or empty text maps to the empty string; otherwise the text is
lowercased and `' '.join(text.split())` collapses whitespace runs. -/
def cleanReviewText : Option PyStr → PyStr
  | none => []
  | some s => if s = [] then [] else pyJoin (pyWords (pyLower s))

/-- `df['text_clean'].str.len()` (process.py line 58). -/
def textLength (s : PyStr) : Nat := s.length

/-- `df['text_clean'].str.split().str.len()` (process.py line 59). -/
def wordCount (s : PyStr) : Nat := (pyWords s).length

/-- Days since the Unix epoch of an epoch-seconds timestamp. -/
def daysFromEpoch (t : Nat) : Nat := t / 86400

/-- Proleptic Gregorian `(year, month, day)` of a day count since
1970-01-01 (the civil-from-days algorithm, valid for non-negative days),
embedding the calendar arithmetic behind `pd.to_datetime(..., unit='s')`. -/
def civilFromDays (z : Nat) : Nat × Nat × Nat :=
  let z' := z + 719468
  let era := z' / 146097
  let doe := z' % 146097
  let yoe := (doe - doe / 1460 + doe / 36524 - doe / 146096) / 365
  let y := yoe + era * 400
  let doy := doe - (365 * yoe + yoe / 4 - yoe / 100)
  let mp := (5 * doy + 2) / 153
  let d := doy - (153 * mp + 2) / 5 + 1
  let m := if mp < 10 then mp + 3 else mp - 9
  (if m ≤ 2 then y + 1 else y, m, d)

/-- Pandas `Series.dt.dayofweek` (Monday = 0) of an epoch-seconds
timestamp; 1970-01-01 was a Thursday (= 3). -/
def dayOfWeek (t : Nat) : Nat := (daysFromEpoch t + 3) % 7

/-! ## Place Collector (`CafeQuery.collect_cafes`, query.py lines 34-71) -/

/-- One raw place record of a nearby-search response page. -/
structure GPlace : Type where
  name : String
  place_id : String
deriving DecidableEq, Repr

/-- One provider response to `places_nearby`: a result page plus an
optional continuation token (`'next_page_token' in response`). -/
structure NearbyResponse : Type where
  results : List GPlace
  next_page_token : Option String
deriving DecidableEq, Repr

/-- The pagination loop of `collect_cafes` (query.py lines 50-55):
`while 'next_page_token' in response: response = places_nearby(page_token=...);
all_cafes.extend(response['results'])`. The provider is a response sequence
indexed by fetch number; `fuel` bounds how many further loop iterations we
unroll. Returns the number of pages fetched so far, and `some` accumulated
results when the loop exited on a token-free response within `fuel`
iterations, `none` when it is still looping. -/
def collectCafesAux (provider : Nat → NearbyResponse) :
    Nat → NearbyResponse → Nat → List GPlace → Nat × Option (List GPlace)
  | fuel, resp, pages, acc =>
    match resp.next_page_token with
    | none => (pages, some acc)
    | some _ =>
      match fuel with
      | 0 => (pages, none)
      | fuel' + 1 =>
        let r := provider pages
        collectCafesAux provider fuel' r (pages + 1) (acc ++ r.results)

/-- `collect_cafes`'s fetching for one area: the initial `places_nearby`
request (query.py lines 39-46) followed by the token-chasing loop. -/
def collectCafesPages (provider : Nat → NearbyResponse) (fuel : Nat) :
    Nat × Option (List GPlace) :=
  collectCafesAux provider fuel (provider 0) 1 (provider 0).results

/-- The adversarial response sequence of the pagination-bound claim:
every response carries a `next_page_token`. -/
def advProvider : Nat → NearbyResponse :=
  fun _ => { results := [], next_page_token := some "tok" }

/-! ## Review Collector (`CafeQuery.collect_reviews`, query.py lines 86-128) -/

/-- One review inside a place-detail response payload. -/
structure GReview : Type where
  time : Option Nat
  author_url : Option String
  rating : Option Rat
  text : Option PyStr
  relative_time_description : Option String
deriving DecidableEq, Repr

/-- The `response['result']` payload of `gmaps.place`: an optional name
and an optional review list (both read with `.get`). -/
structure PlaceDetail : Type where
  name : Option String
  reviews : Option (List GReview)
deriving DecidableEq, Repr

/-- One flattened review row appended to `all_reviews`
(query.py lines 111-119). -/
structure ReviewRecord : Type where
  place_id : String
  place_name : String
  author_id : Option String
  rating : Option Rat
  text : PyStr
  review_date : Option (Nat × Nat × Nat)
  relative_time_description : Option String
deriving DecidableEq, Repr

/-- Build one review row (query.py lines 103-120): the epoch `time` becomes
a calendar date unless it is absent or falsy `0`; `author_id` is the last
`/`-segment of a truthy `author_url`; text defaults to the empty string. -/
def mkReviewRecord (place_id place_name : String) (rv : GReview) : ReviewRecord :=
  { place_id := place_id
    place_name := place_name
    author_id :=
      match rv.author_url with
      | none => none
      | some u => if u = "" then none else some ((u.splitOn "/").getLastD "")
    rating := rv.rating
    text := rv.text.getD []
    review_date :=
      match rv.time with
      | none => none
      | some t => if t = 0 then none else some (civilFromDays (daysFromEpoch t))
    relative_time_description := rv.relative_time_description }

/-- The per-place loop of `collect_reviews`. The `try` body issues the
detail request and, on success, binds the local `place_name` before
flattening the reviews. The `except` branch (query.py lines 124-126) prints
`place_name`: when no earlier request has succeeded that local is still
unbound, so the print itself raises a `NameError` that escapes; otherwise
the place is skipped and the loop continues. -/
def collectReviewsAux (provider : String → Except PyErr PlaceDetail) :
    List String → Option String → List ReviewRecord → Except PyErr (List ReviewRecord)
  | [], _, acc => .ok acc
  | pid :: rest, pname, acc =>
    match provider pid with
    | .ok detail =>
      let nm := detail.name.getD "Unknown"
      let rvs := (detail.reviews.getD []).map (mkReviewRecord pid nm)
      collectReviewsAux provider rest (some nm) (acc ++ rvs)
    | .error _ =>
      match pname with
      | none => .error (.nameError "place_name")
      | some _ => collectReviewsAux provider rest pname acc

/-- `CafeQuery.collect_reviews` over a list of place ids: the local
`place_name` starts unbound and `all_reviews` empty. -/
def collectReviews (provider : String → Except PyErr PlaceDetail)
    (place_ids : List String) : Except PyErr (List ReviewRecord) :=
  collectReviewsAux provider place_ids none []

/-- A concrete provider for the partial-failure claim: the detail request
for `"p1"` raises, any other place succeeds with one review. -/
def c2Provider : String → Except PyErr PlaceDetail := fun pid =>
  if pid = "p1" then .error (.apiError "REQUEST_DENIED")
  else
    .ok { name := some "Cafe B"
          reviews := some [{ time := some 1700000000
                             author_url := some "https://maps.google.com/maps/contrib/42"
                             rating := some 5
                             text := some (codes "Good")
                             relative_time_description := some "a week ago" }] }

/-! ## Cross-area dedup (`collect_data.py` line 71, `process.py` line 29) -/

/-- `drop_duplicates(subset=[key], keep='first')`: scan the rows in order,
keeping a row only when its key has not been seen before. -/
def dropDupByKey {α : Type} (key : α → String) : List α → List String → List α
  | [], _ => []
  | r :: rs, seen =>
    if key r ∈ seen then dropDupByKey key rs seen
    else r :: dropDupByKey key rs (key r :: seen)

/-- One row of the places table as the processor addresses it: the
`place_id` key, the numeric columns `clean_cafe_df` fills, and the
area tags added by `collect_cafes` (query.py lines 66-67). -/
structure CafeRow : Type where
  place_id : String
  name : String
  rating : Option Rat
  total_ratings : Option Rat
  price_level : Option Rat
  neighborhood : String
  region : String
deriving DecidableEq, Repr

/-- `final_cafes.drop_duplicates(subset=['place_id'])`
(collect_data.py line 71; identically process.py line 29). -/
def dedupPlaces (rows : List CafeRow) : List CafeRow :=
  dropDupByKey (fun r => r.place_id) rows []

/-! ## Review cleaning (`CafeProcessor.clean_review_df`, process.py lines 45-69) -/

/-- One row of the raw reviews table handed to `clean_review_df`. The
columns are those `collect_reviews` writes (query.py lines 111-119); the
`time` field is only meaningful when the frame's `hasTimeCol` flag says a
`time` column exists. -/
structure RawReviewRow : Type where
  place_id : String
  place_name : String
  author_id : Option String
  rating : Option Rat
  text : Option PyStr
  review_date : Option (Nat × Nat × Nat)
  relative_time_description : Option String
  time : Option Nat
deriving DecidableEq, Repr

/-- The raw reviews frame: `hasTimeCol` records whether a `time` column is
present (reading `df['time']` raises `KeyError` when it is not — the frame
produced by `collect_reviews` has only `review_date`). -/
structure RawReviewsDf : Type where
  hasTimeCol : Bool
  rows : List RawReviewRow
deriving DecidableEq, Repr

/-- One row of the cleaned reviews table: the surviving original columns
plus `text_clean`, the length features, and the recomputed
`review_date` (epoch seconds) with its temporal features. -/
structure CleanReviewRow : Type where
  place_id : String
  place_name : String
  author_id : Option String
  rating : Option Rat
  text : Option PyStr
  relative_time_description : Option String
  text_clean : PyStr
  text_length : Nat
  word_count : Nat
  review_date : Option Nat
  year : Option Nat
  month : Option Nat
  day_of_week : Option Nat
deriving DecidableEq, Repr

/-- Per-row enrichment of `clean_review_df` (process.py lines 55-65):
`text_clean`/`text_length`/`word_count` from the text, and
`review_date`/`year`/`month`/`day_of_week` recomputed from the `time`
column (null `time` yields null derived fields, as NaT does). -/
def enrichReviewRow (r : RawReviewRow) : CleanReviewRow :=
  let tc := cleanReviewText r.text
  { place_id := r.place_id
    place_name := r.place_name
    author_id := r.author_id
    rating := r.rating
    text := r.text
    relative_time_description := r.relative_time_description
    text_clean := tc
    text_length := textLength tc
    word_count := wordCount tc
    review_date := r.time
    year := r.time.map (fun t => (civilFromDays (daysFromEpoch t)).1)
    month := r.time.map (fun t => (civilFromDays (daysFromEpoch t)).2.1)
    day_of_week := r.time.map dayOfWeek }

/-- `CafeProcessor.clean_review_df` (process.py lines 45-69): first
`drop_duplicates(subset=['place_id'])` (lines 49-52), then the text and
temporal enrichment. Reading `df['time']` at line 62 raises
`KeyError('time')` when the frame has no `time` column, aborting the
method before it returns. -/
def cleanReviewDf (df : RawReviewsDf) : Except PyErr (List CleanReviewRow) :=
  let dd := dropDupByKey (fun r => r.place_id) df.rows []
  if df.hasTimeCol then .ok (dd.map enrichReviewRow)
  else .error (.keyError "time")

/-! ## Cafe cleaning (`CafeProcessor.clean_cafe_df`, process.py lines 23-43) -/

/-- The literal quantile list of process.py line 38, `q = [0, 0,25, 5, 0,75, 1]`:
the commas intended as decimal points make it a seven-element Python list
`[0, 0, 25, 5, 0, 75, 1]`. -/
def qcutQ : List Rat := [0, 0, 25, 5, 0, 75, 1]

/-- `labels = [1, 2, 3, 4]` of process.py line 39. -/
def qcutLabels : List Nat := [1, 2, 3, 4]

/-- `fillna(-1)` on the numeric columns (process.py line 33). -/
def fillNumeric (r : CafeRow) : CafeRow :=
  { r with
    price_level := some (r.price_level.getD (-1))
    rating := some (r.rating.getD (-1))
    total_ratings := some (r.total_ratings.getD (-1)) }

/-- Insertion step of an insertion sort on rationals. -/
def insertSorted (x : Rat) : List Rat → List Rat
  | [] => [x]
  | y :: ys => if x ≤ y then x :: y :: ys else y :: insertSorted x ys

/-- Ascending sort of the data values, as quantile computation requires. -/
def sortRats (l : List Rat) : List Rat := l.foldr insertSorted []

/-- Pandas linear-interpolation quantile of sorted data at fraction `p`. -/
def quantileAt (sorted : List Rat) (p : Rat) : Rat :=
  match sorted with
  | [] => 0
  | _ :: _ =>
    let n := sorted.length
    let pos : Rat := p * ((n - 1 : Nat) : Rat)
    let i : Nat := pos.floor.toNat
    let lo := sorted.getD i 0
    let hi := sorted.getD (min (i + 1) (n - 1)) 0
    lo + (pos - (i : Rat)) * (hi - lo)

/-- True when no two adjacent bin edges coincide. -/
def edgesDistinct : List Rat → Bool
  | [] => true
  | [_] => true
  | a :: b :: rest => a != b && edgesDistinct (b :: rest)

/-- Right-closed bin index of `v` within `edges` (`include_lowest` on the
first bin): the number of internal edges strictly below `v`; `none` when
`v` falls outside the outermost edges. -/
def binIndex (edges : List Rat) (v : Rat) : Option Nat :=
  match edges with
  | [] => none
  | e0 :: rest =>
    match rest.getLast? with
    | none => none
    | some ek =>
      if v < e0 ∨ ek < v then none
      else some ((rest.dropLast.filter (fun e => e < v)).length)

/-- `pd.qcut(x, q, labels)` with an explicit quantile list: the quantile
fractions are validated to lie in `[0, 1]` before anything else (pandas
raises `ValueError('percentiles should all be in the interval [0, 1]')`);
then the bin edges are the quantiles of the data, duplicate edges are
rejected, the label count must be one less than the edge count, and each
value is labelled by its bin. -/
def pdQcut (x : List Rat) (q : List Rat) (labels : List Nat) :
    Except PyErr (List (Option Nat)) :=
  if q.all (fun v => decide (0 ≤ v ∧ v ≤ 1)) then
    let edges := q.map (quantileAt (sortRats x))
    if edgesDistinct edges then
      if labels.length + 1 = edges.length then
        .ok (x.map (fun v => (binIndex edges v).bind (fun i => labels.get? i)))
      else .error (.valueError "Bin labels must be one fewer than the number of bin edges")
    else .error (.valueError "Bin edges must be unique")
  else .error (.valueError "percentiles should all be in the interval [0, 1]")

/-- `CafeProcessor.clean_cafe_df` (process.py lines 23-43): dedup by
`place_id`, fill the numeric columns with `-1`, then bin `total_ratings`
with `pd.qcut(df['total_ratings'], q=[0, 0,25, 5, 0,75, 1], labels=[1,2,3,4])`.
On success each row would be paired with its `ratings_pct` label. -/
def cleanCafeDf (rows : List CafeRow) : Except PyErr (List (CafeRow × Option Nat)) :=
  let filled := (dedupPlaces rows).map fillNumeric
  match pdQcut (filled.map (fun r => r.total_ratings.getD 0)) qcutQ qcutLabels with
  | .error e => .error e
  | .ok tiers => .ok (filled.zip tiers)

/-! ## Aggregation (`CafeProcessor.cafe_reviews_df`, process.py lines 84-100) -/

/-- A numeric cell of the aggregated stats frame. The sample standard
deviation is kept symbolically as `sqrtNum v` (the square root of the
rational variance `v`), since the root itself is irrational in general. -/
inductive PdCell : Type where
  | num (q : Rat)
  | sqrtNum (q : Rat)
  | nan
deriving DecidableEq, Repr

/-- One row of `reviews_df.groupby('place_id').agg({'rating': ['mean','std','count'],
'text_length': 'mean', 'word_count': 'mean'})`. -/
structure StatsRow : Type where
  place_id : String
  rating_mean : PdCell
  rating_std : PdCell
  rating_count : PdCell
  text_length_mean : PdCell
  word_count_mean : PdCell
deriving DecidableEq, Repr

/-- Pandas mean: NaN on an empty group, the arithmetic mean otherwise. -/
def ratMean (xs : List Rat) : PdCell :=
  if xs.length = 0 then .nan else .num ((xs.foldr (· + ·) 0) / (xs.length : Rat))

/-- Sample variance with `ddof = 1` (what pandas `std` takes the root of). -/
def sampleVar (xs : List Rat) : Rat :=
  let n := xs.length
  let mu := (xs.foldr (· + ·) 0) / (n : Rat)
  (xs.foldr (fun x acc => (x - mu) ^ 2 + acc) 0) / (((n - 1 : Nat)) : Rat)

/-- Pandas sample standard deviation: NaN when the group has fewer than
two values, otherwise the square root of the sample variance. -/
def ratStd (xs : List Rat) : PdCell :=
  if xs.length < 2 then .nan else .sqrtNum (sampleVar xs)

/-- Insertion step of an insertion sort on strings. -/
def insertSortedStr (x : String) : List String → List String
  | [] => [x]
  | y :: ys => if x ≤ y then x :: y :: ys else y :: insertSortedStr x ys

/-- Ascending sort of group keys (`groupby` sorts keys by default). -/
def sortStrings (l : List String) : List String := l.foldr insertSortedStr []

/-- The group keys of `groupby('place_id')`: distinct ids, sorted. -/
def groupKeys (reviews : List CleanReviewRow) : List String :=
  sortStrings (dropDupByKey (fun s => s) (reviews.map (fun r => r.place_id)) [])

/-- The `groupby('place_id').agg(...)` frame of process.py lines 88-92:
per place, the mean/std/count of the non-null ratings and the means of
`text_length` and `word_count`. -/
def reviewStats (reviews : List CleanReviewRow) : List StatsRow :=
  (groupKeys reviews).map (fun pid =>
    let grp := reviews.filter (fun r => r.place_id == pid)
    let ratings := grp.filterMap (fun r => r.rating)
    { place_id := pid
      rating_mean := ratMean ratings
      rating_std := ratStd ratings
      rating_count := .num (ratings.length : Rat)
      text_length_mean := ratMean (grp.map (fun r => (r.text_length : Rat)))
      word_count_mean := ratMean (grp.map (fun r => (r.word_count : Rat))) })

/-- 1 when a cell is non-NA, 0 when it is NaN (what `count` tallies). -/
def cellCounted (c : PdCell) : Nat :=
  match c with
  | .nan => 0
  | _ => 1

/-- Non-NA entries of one stats row. -/
def rowNonNA (r : StatsRow) : Nat :=
  cellCounted r.rating_mean + cellCounted r.rating_std + cellCounted r.rating_count +
    cellCounted r.text_length_mean + cellCounted r.word_count_mean

/-- `DataFrame.count(axis)` on the stats frame: axis 0 counts non-NA
entries per column, axis 1 per row; any other axis raises
`ValueError('No axis named ... for object type DataFrame')`
— `.count(2)` is what process.py line 92 chains onto the aggregation. -/
def dfCountAxis (df : List StatsRow) (axis : Nat) : Except PyErr (List (String × Nat)) :=
  if axis = 0 then
    .ok [("rating_mean", (df.map (fun r => cellCounted r.rating_mean)).sum),
         ("rating_std", (df.map (fun r => cellCounted r.rating_std)).sum),
         ("rating_count", (df.map (fun r => cellCounted r.rating_count)).sum),
         ("text_length_mean", (df.map (fun r => cellCounted r.text_length_mean)).sum),
         ("word_count_mean", (df.map (fun r => cellCounted r.word_count_mean)).sum)]
  else if axis = 1 then .ok (df.map (fun r => (r.place_id, rowNonNA r)))
  else .error (.valueError "No axis named 2 for object type DataFrame")

/-- A place row left-joined with whatever the counted stats object still
carries for its `place_id`. -/
structure MergedRow : Type where
  cafe : CafeRow
  review_count : Option Nat
deriving DecidableEq, Repr

/-- `self.cafes_df.merge(review_stats, on='place_id', how='left')`
(process.py lines 94-98): every place row is retained, picking up the
stats entry with its id when one exists. -/
def mergeCounts (cafes : List CafeRow) (counts : List (String × Nat)) : List MergedRow :=
  cafes.map (fun c =>
    { cafe := c
      review_count := (counts.find? (fun kv => kv.1 == c.place_id)).map (fun kv => kv.2) })

/-- `CafeProcessor.cafe_reviews_df` (process.py lines 84-100): aggregate
review stats per place, apply `.count(2)` to the aggregated frame, then
left-join the result onto the places table. -/
def cafeReviewsDf (cafes : List CafeRow) (reviews : List CleanReviewRow) :
    Except PyErr (List MergedRow) :=
  match dfCountAxis (reviewStats reviews) 2 with
  | .error e => .error e
  | .ok counts => .ok (mergeCounts cafes counts)

/-! ## `CafeQuery.collect_all` (query.py lines 73-84) -/

/-- A neighborhood entry as flattened from the YAML config: a Python dict
modelled as an association list (first binding wins on lookup). -/
abbrev NbDict := List (String × String)

/-- Python `d[k]` semantics split into lookup: `none` means the access
raises `KeyError k`. -/
def pyGet (d : NbDict) (k : String) : Option String :=
  (d.find? (fun kv => kv.1 == k)).map (fun kv => kv.2)

/-- The methods defined on `CafeQuery` in query.py
(`collect_neighborhood` is not among them). -/
def cafeQueryMethodNames : List String :=
  ["collect_cafes", "collect_all", "collect_reviews"]

/-- The loop of `collect_all` (query.py lines 77-84). Each iteration first
evaluates the progress f-string, whose `neighborhood['name']` lookup raises
`KeyError` when the dict has no `name` key; then `self.collect_neighborhood`
is resolved against the class's method table, raising `AttributeError` when
absent. The `then` branch of the method test is unreachable for this class
(its method table lacks `collect_neighborhood`), so the would-be collected
frames are tracked only as a count; the final `pd.concat(dfs)` raises when
no frame was ever collected. -/
def collectAllGo : List NbDict → Nat → Except PyErr Unit
  | [], dfCount =>
    if dfCount = 0 then .error (.valueError "No objects to concatenate") else .ok ()
  | nb :: rest, dfCount =>
    match pyGet nb "name" with
    | none => .error (.keyError "name")
    | some _ =>
      if cafeQueryMethodNames.contains "collect_neighborhood" then
        collectAllGo rest (dfCount + 1)
      else .error (.attributeError "collect_neighborhood")

/-- `CafeQuery.collect_all` over the flattened neighborhoods list. -/
def collectAll (nbhds : List NbDict) : Except PyErr Unit := collectAllGo nbhds 0

/-- A neighborhood dict as `__init__` builds them (query.py lines 26-30):
the flattening adds `neighborhood_name` and `region`; no `name` key. -/
def nbNoName : NbDict :=
  [("neighborhood_name", "Tiong Bahru"), ("region", "Central"), ("radius", "500")]

/-! ## Concrete inputs used by the per-claim theorems -/

/-- The reviews frame as `collect_reviews` saves it: a `review_date` value
is present, but there is no `time` column. -/
def collectorReviewsDf : RawReviewsDf :=
  { hasTimeCol := false
    rows := [{ place_id := "p1"
               place_name := "Cafe A"
               author_id := some "author1"
               rating := some 5
               text := some (codes "Nice cafe")
               review_date := some (2024, 5, 1)
               relative_time_description := some "a month ago"
               time := none }] }

/-- A review row for place `p1` by one author. -/
def c6RowA : RawReviewRow :=
  { place_id := "p1"
    place_name := "Cafe A"
    author_id := some "author1"
    rating := some 5
    text := some (codes "Nice cafe")
    review_date := some (2024, 5, 1)
    relative_time_description := some "a month ago"
    time := none }

/-- A distinct review of the same place `p1` by a different author. -/
def c6RowB : RawReviewRow :=
  { place_id := "p1"
    place_name := "Cafe A"
    author_id := some "author2"
    rating := some 2
    text := some (codes "Too crowded")
    review_date := some (2024, 6, 2)
    relative_time_description := some "2 weeks ago"
    time := none }

/-- A reviews frame (with a `time` column) holding two distinct reviews of
the same place by distinct authors. -/
def c6Df : RawReviewsDf := { hasTimeCol := true, rows := [c6RowA, c6RowB] }

/-- What `clean_review_df` returns on `c6Df`: only the first row survives. -/
def c6Out : List CleanReviewRow := [enrichReviewRow c6RowA]

/-! ## Shared lemmas about first-occurrence deduplication -/

theorem dropDupByKey_keys_nodup {α : Type} (key : α → String) :
    ∀ (l : List α) (seen : List String),
      ((dropDupByKey key l seen).map key).Nodup ∧
        ∀ k ∈ (dropDupByKey key l seen).map key, k ∉ seen := by
  intro l
  induction l with
  | nil => intro seen; simp [dropDupByKey]
  | cons r rs ih =>
    intro seen
    by_cases h : key r ∈ seen
    · simpa [dropDupByKey, h] using ih seen
    · rw [dropDupByKey, if_neg h]
      obtain ⟨hnd, hmem⟩ := ih (key r :: seen)
      refine ⟨?_, ?_⟩
      · rw [List.map_cons, List.nodup_cons]
        exact ⟨fun hc => (hmem _ hc) (List.mem_cons_self _ _), hnd⟩
      · intro k hk
        rw [List.map_cons] at hk
        rcases List.mem_cons.mp hk with rfl | hk'
        · exact h
        · exact fun hks => (hmem _ hk') (List.mem_cons_of_mem _ hks)

theorem dropDupByKey_find_eq {α : Type} (key : α → String) (p : String) :
    ∀ (l : List α) (seen : List String), p ∉ seen →
      (dropDupByKey key l seen).find? (fun r => key r == p) =
        l.find? (fun r => key r == p) := by
  intro l
  induction l with
  | nil => intro seen _; rfl
  | cons r rs ih =>
    intro seen hp
    by_cases hk : key r = p
    · have h : key r ∉ seen := by rw [hk]; exact hp
      rw [dropDupByKey, if_neg h]
      rw [List.find?_cons_of_pos _ (by simp [hk]), List.find?_cons_of_pos _ (by simp [hk])]
    · by_cases h : key r ∈ seen
      · rw [dropDupByKey, if_pos h]
        rw [List.find?_cons_of_neg _ (by simp [hk])]
        exact ih seen hp
      · rw [dropDupByKey, if_neg h]
        rw [List.find?_cons_of_neg _ (by simp [hk]), List.find?_cons_of_neg _ (by simp [hk])]
        refine ih (key r :: seen) ?_
        intro hc
        rcases List.mem_cons.mp hc with he | hs
        · exact hk he.symm
        · exact hp hs

theorem dropDupByKey_mem_iff {α : Type} (key : α → String) (p : String) :
    ∀ (l : List α) (seen : List String), p ∉ seen →
      (p ∈ (dropDupByKey key l seen).map key ↔ p ∈ l.map key) := by
  intro l
  induction l with
  | nil => intro seen _; rfl
  | cons r rs ih =>
    intro seen hp
    by_cases hk : key r = p
    · have h : key r ∉ seen := by rw [hk]; exact hp
      rw [dropDupByKey, if_neg h]
      simp [hk]
    · by_cases h : key r ∈ seen
      · rw [dropDupByKey, if_pos h]
        rw [ih seen hp]
        constructor
        · intro hm
          rw [List.map_cons]
          exact List.mem_cons_of_mem _ hm
        · intro hm
          rw [List.map_cons] at hm
          rcases List.mem_cons.mp hm with he | hs
          · exact absurd he.symm hk
          · exact hs
      · rw [dropDupByKey, if_neg h]
        have hp' : p ∉ key r :: seen := by
          intro hc
          rcases List.mem_cons.mp hc with he | hs
          · exact hk he.symm
          · exact hp hs
        simp only [List.map_cons, List.mem_cons]
        rw [ih (key r :: seen) hp']

theorem collectCafesAux_adv (fuel : Nat) :
    ∀ (pages : Nat) (acc : List GPlace),
      collectCafesAux advProvider fuel { results := [], next_page_token := some "tok" }
          pages acc = (pages + fuel, none) := by
  induction fuel with
  | zero => intro pages acc; rfl
  | succ f ih =>
    intro pages acc
    show collectCafesAux advProvider (f + 1) _ pages acc = _
    rw [collectCafesAux]
    have : pages + 1 + f = pages + (f + 1) := by omega
    simpa [advProvider, this] using ih (pages + 1) acc

/-- C1: false of the code — for the adversarial response sequence in which
every response carries a `next_page_token`, `collect_cafes` has issued
`fuel + 1` page fetches after any `fuel` loop iterations and the loop has
still not terminated: there is no 3-page cap (query.py lines 50-55). -/
theorem collect_cafes_pagination_unbounded (fuel : Nat) :
    collectCafesPages advProvider fuel = (fuel + 1, none) := by
  show collectCafesAux advProvider fuel (advProvider 0) 1 (advProvider 0).results = _
  have : (1 : Nat) + fuel = fuel + 1 := by omega
  simpa [advProvider, this] using collectCafesAux_adv fuel 1 []

/-- C2: false of the code — when the detail request for the first place
raises, the `except` handler's print references the still-unbound local
`place_name`, so a `NameError` escapes `collect_reviews` instead of the
batch continuing (query.py lines 124-126). -/
theorem collect_reviews_first_failure_escapes :
    collectReviews c2Provider ["p1", "p2"] = .error (.nameError "place_name") := by
  rfl

/-- C3: for every input list of tagged place records and every `place_id`,
the deduplicated place set (`drop_duplicates(subset=['place_id'])`,
collect_data.py line 71) has nodup ids, keeps exactly the ids of the
input, and the surviving row — neighborhood and region tags included — is
the first occurrence of that id in collection order. -/
theorem dedup_places_first_occurrence (rows : List CafeRow) (pid : String) :
    ((dedupPlaces rows).map (fun r => r.place_id)).Nodup ∧
      (pid ∈ (dedupPlaces rows).map (fun r => r.place_id) ↔
        pid ∈ rows.map (fun r => r.place_id)) ∧
      (dedupPlaces rows).find? (fun r => r.place_id == pid) =
        rows.find? (fun r => r.place_id == pid) := by
  refine ⟨(dropDupByKey_keys_nodup _ rows []).1, ?_, ?_⟩
  · exact dropDupByKey_mem_iff _ pid rows [] (List.not_mem_nil pid)
  · exact dropDupByKey_find_eq _ pid rows [] (List.not_mem_nil pid)

/-- C4: false of the code — for every input place table, `clean_cafe_df`
raises: the literal `q = [0, 0,25, 5, 0,75, 1]` (process.py line 38)
contains quantile fractions outside `[0, 1]`, so `pd.qcut` raises a
`ValueError` and no `ratings_pct` tier is ever assigned. -/
theorem clean_cafe_df_qcut_raises (rows : List CafeRow) :
    cleanCafeDf rows =
      .error (.valueError "percentiles should all be in the interval [0, 1]") := by
  have h : (qcutQ.all (fun v => decide (0 ≤ v ∧ v ≤ 1))) = false := by decide
  rw [cleanCafeDf, pdQcut, h]
  rfl

/-- C5: false of the code — for every places table and reviews table,
`cafe_reviews_df` raises: the aggregation chains `.count(2)` onto the
grouped stats (process.py line 92) and a pandas frame has no axis 2, so
the per-place mean/std/count statistics are never merged onto the place
table. -/
theorem cafe_reviews_df_count_axis_raises
    (cafes : List CafeRow) (reviews : List CleanReviewRow) :
    cafeReviewsDf cafes reviews =
      .error (.valueError "No axis named 2 for object type DataFrame") := by
  rw [cafeReviewsDf, dfCountAxis]
  rfl

/-- C7: false of the code — on the reviews table that `collect_reviews`
itself produces (which has a populated `review_date` column and no `time`
column), `clean_review_df` raises `KeyError('time')` at
`pd.to_datetime(df['time'], unit='s')` (process.py line 62) instead of
deriving `year`/`month`/`day_of_week` from `review_date`. -/
theorem clean_review_df_missing_time_column :
    cleanReviewDf collectorReviewsDf = .error (.keyError "time") := by
  rfl

/-- C9: the cleaning pipeline maps the review text
`"  Great Coffee!!  \n Nice "` to `text_clean = "great coffee!! nice"`,
`text_length = 19`, and `word_count = 3`
(process.py lines 55-59 and 72-82). -/
theorem clean_text_end_to_end_example :
    cleanReviewText (some (codes "  Great Coffee!!  \n Nice ")) = codes "great coffee!! nice" ∧
      textLength (cleanReviewText (some (codes "  Great Coffee!!  \n Nice "))) = 19 ∧
      wordCount (cleanReviewText (some (codes "  Great Coffee!!  \n Nice "))) = 3 := by
  refine ⟨by decide, by decide, by decide⟩

/-- C10, counterexample: on a neighborhoods list whose first dict is the
shape `__init__` builds (`neighborhood_name`/`region`/`radius`, no `name`
key), the first loop iteration of `collect_all` raises `KeyError('name')`
at the progress f-string (query.py line 78) — not the claimed
`AttributeError` from `collect_neighborhood`, which is never reached. -/
theorem collect_all_keyerror_counterexample :
    collectAll [nbNoName] = .error (.keyError "name") ∧
      PyErr.keyError "name" ≠ PyErr.attributeError "collect_neighborhood" := by
  exact ⟨by rfl, by decide⟩

/-- C10, amended: for every non-empty neighborhoods list, `collect_all`
never returns a value — its first loop iteration raises a `KeyError` from
the `neighborhood['name']` lookup in the progress message when the first
dict lacks a `name` key, and otherwise an `AttributeError` because
`collect_neighborhood` is not defined on `CafeQuery`
(query.py lines 78-79). -/
theorem collect_all_first_iteration_raises (nb : NbDict) (rest : List NbDict) :
    collectAll (nb :: rest) =
      .error (match pyGet nb "name" with
              | none => .keyError "name"
              | some _ => .attributeError "collect_neighborhood") := by
  have hc : cafeQueryMethodNames.contains "collect_neighborhood" = false := by decide
  rw [collectAll, collectAllGo]
  cases h : pyGet nb "name" with
  | none => rfl
  | some v => rw [hc]; rfl

/-! ## Lemmas about `str.split()` / `' '.join` / `str.lower` -/

theorem dropWhile_head_false {α : Type} {p : α → Bool} :
    ∀ {l : List α} {c : α} {cs : List α}, l.dropWhile p = c :: cs → p c = false := by
  intro l
  induction l with
  | nil => intro c cs h; simp [List.dropWhile] at h
  | cons a t ih =>
    intro c cs h
    by_cases hp : p a
    · rw [List.dropWhile_cons_of_pos hp] at h
      exact ih h
    · rw [List.dropWhile_cons_of_neg hp] at h
      cases h
      simpa using hp

theorem pyWords_cons_space {c : Nat} (s : PyStr) (hc : pyIsSpace c = true) :
    pyWords (c :: s) = pyWords s := by
  show pyWordsAux (c :: s) [] = pyWordsAux s []
  rw [pyWordsAux, if_pos hc, if_pos rfl]

theorem pyWords_dropWhile (s : PyStr) :
    pyWords (s.dropWhile pyIsSpace) = pyWords s := by
  induction s with
  | nil => rfl
  | cons c t ih =>
    by_cases hc : pyIsSpace c
    · rw [List.dropWhile_cons_of_pos hc, ih, pyWords_cons_space t hc]
    · rw [List.dropWhile_cons_of_neg hc]

theorem pyWordsAux_cur_ne_nil :
    ∀ (s : PyStr) (cur : PyStr), cur ≠ [] →
      pyWordsAux s cur =
        (cur.reverse ++ s.takeWhile (fun d => !pyIsSpace d)) ::
          pyWords (s.dropWhile (fun d => !pyIsSpace d)) := by
  intro s
  induction s with
  | nil => intro cur hc; rw [pyWordsAux, if_neg hc]; simp [pyWords, pyWordsAux]
  | cons c t ih =>
    intro cur hc
    by_cases hsp : pyIsSpace c
    · rw [pyWordsAux, if_pos hsp, if_neg hc]
      rw [List.takeWhile_cons_of_neg (by simp [hsp]), List.dropWhile_cons_of_neg (by simp [hsp])]
      rw [List.append_nil]
      rw [pyWords_cons_space t hsp]
      rfl
    · rw [pyWordsAux, if_neg hsp]
      rw [ih (c :: cur) (by simp)]
      rw [List.takeWhile_cons_of_pos (by simp [hsp]), List.dropWhile_cons_of_pos (by simp [hsp])]
      rw [List.reverse_cons, List.append_assoc]
      rfl

theorem pyWords_eq_cons {s : PyStr} {c : Nat} {cs : PyStr}
    (h : s.dropWhile pyIsSpace = c :: cs) :
    pyWords s =
      (c :: cs.takeWhile (fun d => !pyIsSpace d)) ::
        pyWords (cs.dropWhile (fun d => !pyIsSpace d)) := by
  have hc : pyIsSpace c = false := dropWhile_head_false h
  rw [← pyWords_dropWhile s, h]
  show pyWordsAux (c :: cs) [] = _
  rw [pyWordsAux, if_neg (by simp [hc])]
  rw [pyWordsAux_cur_ne_nil cs [c] (by simp)]
  rfl

theorem pyWordsAux_tokens :
    ∀ (s : PyStr) (cur : PyStr), (∀ c ∈ cur, pyIsSpace c = false) →
      ∀ w ∈ pyWordsAux s cur, w ≠ [] ∧ ∀ c ∈ w, pyIsSpace c = false := by
  intro s
  induction s with
  | nil =>
    intro cur hcur w hw
    by_cases hc : cur = []
    · rw [pyWordsAux, if_pos hc] at hw
      simp at hw
    · rw [pyWordsAux, if_neg hc] at hw
      rcases List.mem_singleton.mp hw with rfl
      refine ⟨by simpa using hc, ?_⟩
      intro x hx
      exact hcur x (List.mem_reverse.mp hx)
  | cons a t ih =>
    intro cur hcur w hw
    by_cases hsp : pyIsSpace a
    · rw [pyWordsAux, if_pos hsp] at hw
      by_cases hc : cur = []
      · rw [if_pos hc] at hw
        exact ih [] (by simp) w hw
      · rw [if_neg hc] at hw
        rcases List.mem_cons.mp hw with rfl | hw'
        · refine ⟨by simpa using hc, ?_⟩
          intro x hx
          exact hcur x (List.mem_reverse.mp hx)
        · exact ih [] (by simp) w hw'
    · rw [pyWordsAux, if_neg hsp] at hw
      refine ih (a :: cur) ?_ w hw
      intro x hx
      rcases List.mem_cons.mp hx with rfl | hx'
      · simpa using hsp
      · exact hcur x hx'

theorem pyWords_tokens (s : PyStr) :
    ∀ w ∈ pyWords s, w ≠ [] ∧ ∀ c ∈ w, pyIsSpace c = false :=
  pyWordsAux_tokens s [] (by simp)

theorem takeWhile_of_all {α : Type} {p : α → Bool} :
    ∀ (l : List α), (∀ a ∈ l, p a = true) → l.takeWhile p = l := by
  intro l
  induction l with
  | nil => intro _; rfl
  | cons a t ih =>
    intro h
    rw [List.takeWhile_cons_of_pos (h a (List.mem_cons_self a t))]
    rw [ih (fun x hx => h x (List.mem_cons_of_mem a hx))]

theorem dropWhile_of_all {α : Type} {p : α → Bool} :
    ∀ (l : List α), (∀ a ∈ l, p a = true) → l.dropWhile p = [] := by
  intro l
  induction l with
  | nil => intro _; rfl
  | cons a t ih =>
    intro h
    rw [List.dropWhile_cons_of_pos (h a (List.mem_cons_self a t))]
    exact ih (fun x hx => h x (List.mem_cons_of_mem a hx))

theorem pyWords_pyJoin :
    ∀ (ws : List PyStr), (∀ w ∈ ws, w ≠ [] ∧ ∀ c ∈ w, pyIsSpace c = false) →
      pyWords (pyJoin ws) = ws := by
  intro ws
  induction ws with
  | nil => intro _; rfl
  | cons w rest ih =>
    intro h
    obtain ⟨hne, hsf⟩ := h w (List.mem_cons_self w rest)
    obtain ⟨c, w', rfl⟩ : ∃ c w', w = c :: w' := by
      cases w with
      | nil => exact absurd rfl hne
      | cons c w' => exact ⟨c, w', rfl⟩
    have hc : pyIsSpace c = false := hsf c (List.mem_cons_self c w')
    have hall : ∀ a ∈ w', (fun d => !pyIsSpace d) a = true := by
      intro a ha
      simp [hsf a (List.mem_cons_of_mem c ha)]
    cases rest with
    | nil =>
      show pyWords (c :: w') = [c :: w']
      rw [pyWords_eq_cons (List.dropWhile_cons_of_neg (by simp [hc]))]
      rw [takeWhile_of_all w' hall, dropWhile_of_all w' hall]
      rfl
    | cons x xs =>
      show pyWords ((c :: w') ++ 32 :: pyJoin (x :: xs)) = (c :: w') :: x :: xs
      rw [List.cons_append]
      rw [pyWords_eq_cons (List.dropWhile_cons_of_neg (by simp [hc]))]
      rw [List.takeWhile_append_of_pos hall, List.dropWhile_append_of_pos hall]
      rw [List.takeWhile_cons_of_neg (by simp [pyIsSpace]), List.append_nil]
      rw [List.dropWhile_cons_of_neg (by simp [pyIsSpace])]
      rw [pyWords_cons_space _ (by simp [pyIsSpace])]
      rw [ih (fun v hv => h v (List.mem_cons_of_mem _ hv))]

theorem pyLowerChar_idem (c : Nat) : pyLowerChar (pyLowerChar c) = pyLowerChar c := by
  unfold pyLowerChar
  by_cases h : 65 ≤ c ∧ c ≤ 90
  · rw [if_pos h, if_neg (by omega)]
  · rw [if_neg h, if_neg h]

theorem pyIsSpace_pyLowerChar (c : Nat) : pyIsSpace (pyLowerChar c) = pyIsSpace c := by
  unfold pyLowerChar
  by_cases h : 65 ≤ c ∧ c ≤ 90
  · rw [if_pos h]
    have h1 : pyIsSpace (c + 32) = false := by simp [pyIsSpace]; omega
    have h2 : pyIsSpace c = false := by simp [pyIsSpace]; omega
    rw [h1, h2]
  · rw [if_neg h]

theorem pyLower_idem (s : PyStr) : pyLower (pyLower s) = pyLower s := by
  simp only [pyLower, List.map_map]
  exact List.map_congr_left (fun c _ => pyLowerChar_idem c)

theorem pyLower_pyJoin : ∀ (ws : List PyStr), pyLower (pyJoin ws) = pyJoin (ws.map pyLower)
  | [] => rfl
  | [_] => rfl
  | w :: x :: xs => by
    show pyLower (w ++ 32 :: pyJoin (x :: xs)) = pyJoin (pyLower w :: (x :: xs).map pyLower)
    have h32 : pyLowerChar 32 = 32 := rfl
    calc pyLower (w ++ 32 :: pyJoin (x :: xs))
        = pyLower w ++ pyLowerChar 32 :: pyLower (pyJoin (x :: xs)) := by
          simp [pyLower]
      _ = pyLower w ++ 32 :: pyJoin ((x :: xs).map pyLower) := by
          rw [h32, pyLower_pyJoin (x :: xs)]
      _ = pyJoin (pyLower w :: (x :: xs).map pyLower) := rfl

theorem pyWordsAux_map (f : Nat → Nat) (hf : ∀ c, pyIsSpace (f c) = pyIsSpace c) :
    ∀ (s : PyStr) (cur : PyStr),
      pyWordsAux (s.map f) (cur.map f) = (pyWordsAux s cur).map (List.map f) := by
  intro s
  induction s with
  | nil =>
    intro cur
    by_cases hc : cur = []
    · subst hc; rfl
    · have hc' : cur.map f ≠ [] := by simpa using hc
      rw [List.map_nil, pyWordsAux, if_neg hc', pyWordsAux, if_neg hc]
      rw [List.map_cons, List.map_nil, List.map_reverse]
  | cons a t ih =>
    intro cur
    rw [List.map_cons, pyWordsAux, pyWordsAux, hf a]
    by_cases hsp : pyIsSpace a
    · rw [if_pos hsp, if_pos hsp]
      by_cases hc : cur = []
      · have hc' : cur.map f = [] := by simp [hc]
        rw [if_pos hc', if_pos hc]
        exact ih []
      · have hc' : cur.map f ≠ [] := by simpa using hc
        rw [if_neg hc', if_neg hc, List.map_cons, List.map_reverse]
        rw [show pyWordsAux (t.map f) [] = pyWordsAux (t.map f) (List.map f []) from rfl]
        rw [ih []]
    · rw [if_neg hsp, if_neg hsp]
      rw [show f a :: cur.map f = (a :: cur).map f from rfl]
      exact ih (a :: cur)

theorem pyWords_map (f : Nat → Nat) (hf : ∀ c, pyIsSpace (f c) = pyIsSpace c) (s : PyStr) :
    pyWords (s.map f) = (pyWords s).map (List.map f) :=
  pyWordsAux_map f hf s []

/-- C8: `clean_review_text` is idempotent — applying it to its own output
returns that output unchanged for every input — and null or empty input
maps to the empty string (process.py lines 72-82). -/
theorem clean_review_text_idempotent :
    (∀ t : Option PyStr, cleanReviewText (some (cleanReviewText t)) = cleanReviewText t) ∧
      cleanReviewText none = [] ∧ cleanReviewText (some []) = [] := by
  refine ⟨?_, rfl, rfl⟩
  intro t
  match t with
  | none => rfl
  | some s =>
    by_cases hs : s = []
    · subst hs; rfl
    · show cleanReviewText (some (cleanReviewText (some s))) = cleanReviewText (some s)
      have hcs : cleanReviewText (some s) = pyJoin (pyWords (pyLower s)) := by
        simp only [cleanReviewText]
        rw [if_neg hs]
      rw [hcs]
      by_cases hrn : pyJoin (pyWords (pyLower s)) = []
      · rw [hrn]; rfl
      · have htok := pyWords_tokens (pyLower s)
        have hmap : (pyWords (pyLower s)).map (List.map pyLowerChar) = pyWords (pyLower s) := by
          rw [← pyWords_map pyLowerChar pyIsSpace_pyLowerChar (pyLower s)]
          rw [show (pyLower s).map pyLowerChar = pyLower (pyLower s) from rfl]
          rw [pyLower_idem s]
        have hlr : pyLower (pyJoin (pyWords (pyLower s))) = pyJoin (pyWords (pyLower s)) := by
          rw [pyLower_pyJoin]
          rw [show (pyWords (pyLower s)).map pyLower =
                (pyWords (pyLower s)).map (List.map pyLowerChar) from rfl]
          rw [hmap]
        simp only [cleanReviewText]
        rw [if_neg hrn, hlr, pyWords_pyJoin (pyWords (pyLower s)) htok]

theorem find_map_enrich (l : List RawReviewRow) (pid : String) :
    (l.map enrichReviewRow).find? (fun r => r.place_id == pid) =
      (l.find? (fun r => r.place_id == pid)).map enrichReviewRow := by
  rw [List.find?_map]
  rfl

/-- C6: whenever `clean_review_df` runs to completion, the returned reviews
table has at most one row per distinct `place_id` — its
`drop_duplicates(subset=['place_id'])` step (process.py lines 49-52) keeps
only the first row with each id, dropping later rows even when they are
distinct reviews by distinct authors; the surviving row's identifying
fields equal those of the input's first occurrence of that id. -/
theorem clean_review_df_at_most_one_per_place
    (df : RawReviewsDf) (out : List CleanReviewRow) (pid : String)
    (h : cleanReviewDf df = .ok out) :
    (out.map (fun r => r.place_id)).Nodup ∧
      (out.find? (fun r => r.place_id == pid)).map
          (fun r => (r.place_id, r.author_id, r.text)) =
        (df.rows.find? (fun r => r.place_id == pid)).map
          (fun r => (r.place_id, r.author_id, r.text)) := by
  cases hb : df.hasTimeCol with
  | false => rw [cleanReviewDf, hb] at h; simp at h
  | true =>
    rw [cleanReviewDf, hb, if_pos rfl] at h
    have hout : out =
        (dropDupByKey (fun r => r.place_id) df.rows []).map enrichReviewRow := by
      cases h; rfl
    subst hout
    constructor
    · rw [List.map_map]
      exact (dropDupByKey_keys_nodup (fun r : RawReviewRow => r.place_id) df.rows []).1
    · rw [find_map_enrich]
      rw [dropDupByKey_find_eq (fun r : RawReviewRow => r.place_id) pid df.rows []
            (List.not_mem_nil pid)]
      rw [Option.map_map]
      rfl

/-- Witness for C6 at a concrete frame: two distinct reviews of place
`p1` by distinct authors go in, only the first survives. -/
theorem clean_review_df_at_most_one_per_place_witness :
    (c6Out.map (fun r => r.place_id)).Nodup ∧
      (c6Out.find? (fun r => r.place_id == "p1")).map
          (fun r => (r.place_id, r.author_id, r.text)) =
        (c6Df.rows.find? (fun r => r.place_id == "p1")).map
          (fun r => (r.place_id, r.author_id, r.text)) :=
  clean_review_df_at_most_one_per_place c6Df c6Out "p1" (by rfl)
